import Mathlib

/-!
Verification of the comparable-selection and price-estimation pipeline of the
Home-Pricing-Prediction repository.

The development shallowly embeds the two core modules:
  * `backend/services/comparable_selector.py` (class `ComparableSelector`)
  * `backend/services/price_estimator.py` (class `PriceEstimator`)

Python floats are modelled as real numbers (`ℝ`), Python `int()` truncation and
`round(x, n)` as explicit operations on `ℝ`, property dictionaries as records of
optional fields (`none` models an absent key, `Option.getD` models `dict.get`
with a default), and the ambient wall clock as an explicit `Clock` argument
threaded to the code that reads `datetime.now()`.  `list.sort(key=...)` is
modelled by the stable `List.mergeSort`.  The exceptions raised by the
embedded code are modelled with `Except`: the empty-comparables guard of
`estimate_price`, and the `ZeroDivisionError` of the inverse-distance weight
`1.0 / (1.0 + knn_distance)` when a comparable passing the positive
sqft/price filter carries `knn_distance = -1.0` (see `divisionErrorComps`).
-/

open scoped Classical

noncomputable section

namespace HomePricing

/-- Python `int(x)` for a float `x`: truncation toward zero. -/
def truncInt (x : ℝ) : ℤ := if 0 ≤ x then ⌊x⌋ else ⌈x⌉

/-- Python `round(x, n)`: round to `n` decimal places (ties modelled half-up). -/
def roundTo (n : ℕ) (x : ℝ) : ℝ := (round (x * 10 ^ n) : ℤ) / 10 ^ n

/-- Arithmetic mean of a list of floats (`np.mean` / `statistics.mean`). -/
def listMean (xs : List ℝ) : ℝ := xs.sum / xs.length

/-- Population standard deviation (`np.std`). -/
def popStd (xs : List ℝ) : ℝ :=
  Real.sqrt ((xs.map (fun x => (x - listMean xs) ^ 2)).sum / xs.length)

/-- Sample standard deviation (`statistics.stdev`), used only on lists of
length at least two. -/
def sampleStdev (xs : List ℝ) : ℝ :=
  Real.sqrt ((xs.map (fun x => (x - listMean xs) ^ 2)).sum / ((xs.length : ℝ) - 1))

/-- The ambient wall clock, read by `_extract_features` via `datetime.now()`:
the current calendar year and the current UTC instant in epoch seconds. -/
structure Clock where
  year : ℤ
  epochSeconds : ℤ

/-- A raw property dictionary.  Each field models the presence (`some`) or
absence (`none`) of the corresponding key.  `sale_date` models the raw string:
`none` is an absent key, `some none` a string `dateutil` fails to parse, and
`some (some t)` a string parsing to the UTC instant `t` in epoch seconds. -/
structure PropertyRecord where
  latitude : Option ℝ := none
  longitude : Option ℝ := none
  sqft : Option ℝ := none
  square_footage : Option ℝ := none
  bedrooms : Option ℝ := none
  bathrooms : Option ℝ := none
  year_built : Option ℝ := none
  has_private_pool : Option Bool := none
  has_community_pool : Option Bool := none
  pool : Option Bool := none
  garage : Option Bool := none
  sale_price : Option ℝ := none
  sale_date : Option (Option ℤ) := none
  days_since_sale : Option ℝ := none
  knn_distance : Option ℝ := none
  similarity_score : Option ℝ := none

/-- The eight KNN features of `ComparableSelector`. -/
inductive Feature where
  | latitude
  | longitude
  | sqft
  | bedrooms
  | bathrooms
  | year_built
  | days_since_sale
  | has_pool
deriving DecidableEq

/-- The fixed iteration order of the eight features. -/
def allFeatures : List Feature :=
  [.latitude, .longitude, .sqft, .bedrooms, .bathrooms, .year_built,
   .days_since_sale, .has_pool]

namespace ComparableSelector

/-- `ComparableSelector.FEATURE_WEIGHTS`: feature weights for the KNN distance. -/
def FEATURE_WEIGHTS : Feature → ℝ
  | .latitude => 0.15
  | .longitude => 0.15
  | .sqft => 0.20
  | .bedrooms => 0.12
  | .bathrooms => 0.08
  | .year_built => 0.10
  | .days_since_sale => 0.10
  | .has_pool => 0.10

/-- `ComparableSelector._extract_features`: extract the eight numeric features
from a property dictionary.  `year_built` defaults to the current year;
`days_since_sale` uses the explicit value when non-zero, otherwise derives it
from the sale date when that key is present (90 on a parse failure). -/
def _extract_features (now : Clock) (property_data : PropertyRecord) : Feature → ℝ :=
  fun f =>
    match f with
    | .latitude => property_data.latitude.getD 0
    | .longitude => property_data.longitude.getD 0
    | .sqft => property_data.sqft.getD (property_data.square_footage.getD 0)
    | .bedrooms => property_data.bedrooms.getD 0
    | .bathrooms => property_data.bathrooms.getD 0
    | .year_built => property_data.year_built.getD (now.year : ℝ)
    | .has_pool =>
        if property_data.has_private_pool.getD false
            || property_data.has_community_pool.getD false then 1 else 0
    | .days_since_sale =>
        let d := property_data.days_since_sale.getD 0
        if d = 0 then
          match property_data.sale_date with
          | some (some t) => (((now.epochSeconds - t).fdiv 86400 : ℤ) : ℝ)
          | some none => 90
          | none => d
        else d

/-- Per-feature normalization statistics. -/
structure Stat where
  mean : ℝ
  std : ℝ

/-- `ComparableSelector._calculate_feature_stats`: mean and standard deviation
of each feature across the pool; a standard deviation of exactly 0 is replaced
by 1.0.  An empty pool yields no statistics (the Python code returns `{}`). -/
def _calculate_feature_stats (all_features : List (Feature → ℝ)) :
    Feature → Option Stat := fun f =>
  if all_features = [] then none
  else
    let values := all_features.map (fun v => v f)
    let std0 := popStd values
    some { mean := listMean values, std := if std0 = 0 then 1 else std0 }

/-- `ComparableSelector._normalize_features`: z-score normalization; a feature
with no statistics is passed through unchanged. -/
def _normalize_features (features : Feature → ℝ) (stats : Feature → Option Stat) :
    Feature → ℝ := fun f =>
  match stats f with
  | some st => (features f - st.mean) / st.std
  | none => features f

/-- `ComparableSelector._calculate_weighted_euclidean_distance`. -/
def _calculate_weighted_euclidean_distance (features1 features2 : Feature → ℝ) : ℝ :=
  Real.sqrt ((allFeatures.map
    (fun f => FEATURE_WEIGHTS f * (features1 f - features2 f) ^ 2)).sum)

/-- `ComparableSelector._distance_to_similarity`: `round(100 * exp(-distance), 2)`. -/
def _distance_to_similarity (distance : ℝ) : ℝ :=
  roundTo 2 (100 * Real.exp (-distance))

/-- `math.atan2`. -/
def atan2 (y x : ℝ) : ℝ :=
  if 0 < x then Real.arctan (y / x)
  else if x < 0 then
    (if 0 ≤ y then Real.arctan (y / x) + Real.pi else Real.arctan (y / x) - Real.pi)
  else
    (if 0 < y then Real.pi / 2 else if y < 0 then -(Real.pi / 2) else 0)

/-- `math.radians`. -/
def radians (x : ℝ) : ℝ := x * Real.pi / 180

/-- `ComparableSelector._calculate_haversine_distance`: great-circle distance
in miles, Earth radius 3959. -/
def _calculate_haversine_distance (lat1 lon1 lat2 lon2 : ℝ) : ℝ :=
  let R : ℝ := 3959
  let lat1_rad := radians lat1
  let lat2_rad := radians lat2
  let delta_lat := radians (lat2 - lat1)
  let delta_lon := radians (lon2 - lon1)
  let a := Real.sin (delta_lat / 2) ^ 2 +
    Real.cos lat1_rad * Real.cos lat2_rad * Real.sin (delta_lon / 2) ^ 2
  let c := 2 * atan2 (Real.sqrt a) (Real.sqrt (1 - a))
  R * c

/-- The per-feature breakdown attached to each selected comparable. -/
structure ScoreBreakdown where
  distance_miles : ℝ
  sqft_diff : ℝ
  sqft_pct_diff : ℝ
  bedrooms_diff : ℝ
  bathrooms_diff : ℝ
  age_diff_years : ℝ
  days_since_sale : ℝ
  has_pool_match : ℕ
  knn_method : String

/-- `ComparableSelector._get_score_breakdown` (features always supplied by the
caller inside `select_top_comparables`). -/
def _get_score_breakdown (subject_features comp_features : Feature → ℝ) :
    ScoreBreakdown :=
  let distance_miles := _calculate_haversine_distance
    (subject_features .latitude) (subject_features .longitude)
    (comp_features .latitude) (comp_features .longitude)
  { distance_miles := roundTo 2 distance_miles
    sqft_diff := |subject_features .sqft - comp_features .sqft|
    sqft_pct_diff :=
      if 0 < subject_features .sqft then
        roundTo 1 (|subject_features .sqft - comp_features .sqft|
          / subject_features .sqft * 100)
      else 0
    bedrooms_diff := |subject_features .bedrooms - comp_features .bedrooms|
    bathrooms_diff := |subject_features .bathrooms - comp_features .bathrooms|
    age_diff_years := |subject_features .year_built - comp_features .year_built|
    days_since_sale := comp_features .days_since_sale
    has_pool_match := if subject_features .has_pool = comp_features .has_pool then 1 else 0
    knn_method := "Weighted Euclidean Distance" }

/-- A selected comparable: the original record plus the derived fields the
selector adds to the copied dictionary. -/
structure RankedComparable where
  record : PropertyRecord
  similarity_score : ℝ
  knn_distance : ℝ
  distance_miles : ℝ
  score_breakdown : ScoreBreakdown

/-- `ComparableSelector.select_top_comparables`: extract features, fit the
normalization statistics on the candidate pool, rank all candidates by the
weighted Euclidean distance to the subject (stable sort), keep the first
`num_comps`, and decorate each with similarity, rounded distance, geographic
distance and a score breakdown.  An empty pool returns an empty list. -/
def select_top_comparables (now : Clock) (subject_home : PropertyRecord)
    (comparable_sales : List PropertyRecord) (num_comps : ℕ) :
    List RankedComparable :=
  if comparable_sales = [] then []
  else
    let subject_features := _extract_features now subject_home
    let comparable_features := comparable_sales.map (_extract_features now)
    let feature_stats := _calculate_feature_stats comparable_features
    let subject_normalized := _normalize_features subject_features feature_stats
    let scored := comparable_sales.map (fun comp =>
      let comp_features := _extract_features now comp
      (comp, comp_features,
        _calculate_weighted_euclidean_distance subject_normalized
          (_normalize_features comp_features feature_stats)))
    let k_nearest := (scored.mergeSort (fun a b => decide (a.2.2 ≤ b.2.2))).take num_comps
    k_nearest.map (fun x =>
      { record := x.1
        similarity_score := _distance_to_similarity x.2.2
        knn_distance := roundTo 4 x.2.2
        distance_miles := roundTo 2 (_calculate_haversine_distance
          (subject_features .latitude) (subject_features .longitude)
          (x.2.1 .latitude) (x.2.1 .longitude))
        score_breakdown := _get_score_breakdown subject_features x.2.1 })

end ComparableSelector

namespace PriceEstimator

/-- The condition summary handed to `PriceEstimator.estimate_price` (label,
numeric score, textual concerns). -/
structure ConditionSummary where
  overall_condition : Option String := none
  condition_score : Option ℝ := none
  concerns : List String := []

/-- The `comp.get('sqft', comp.get('square_footage', 1))` read of
`_calculate_base_price`. -/
def compSqft (c : PropertyRecord) : ℝ := c.sqft.getD (c.square_footage.getD 1)

/-- The `comp.get('sale_price', 0)` read. -/
def compPrice (c : PropertyRecord) : ℝ := c.sale_price.getD 0

/-- The `comp.get('knn_distance', 1.0)` read. -/
def compKnnDistance (c : PropertyRecord) : ℝ := c.knn_distance.getD 1

/-- The subject square footage used by `_calculate_base_price`: default 1 for
missing keys, and an explicit 0 is replaced by 1. -/
def subjectSqftEff (s : PropertyRecord) : ℝ :=
  let s0 := s.sqft.getD (s.square_footage.getD 1)
  if s0 = 0 then 1 else s0

/-- The comparables that pass the `comp_sqft > 0 and comp_price > 0` filter of
`_calculate_base_price`. -/
def usableComps (comparables : List PropertyRecord) : List PropertyRecord :=
  comparables.filter (fun c => decide (0 < compSqft c ∧ 0 < compPrice c))

/-- The comparables on which Python's `weight = 1.0 / (1.0 + knn_distance)`
inside `_calculate_base_price` raises `ZeroDivisionError`: comparables that
pass the positive sqft/price filter and whose `knn_distance` is exactly −1.
`estimate_price` raises on this region; the pure `_calculate_base_price`
below is its value on the non-raising domain (Lean division is total). -/
def divisionErrorComps (comparables : List PropertyRecord) : List PropertyRecord :=
  (usableComps comparables).filter (fun c => decide (1 + compKnnDistance c = 0))

/-- `PriceEstimator._calculate_base_price`: inverse-distance-weighted mean of
the size-normalized prices of the usable comparables, falling back to the
unweighted mean of the positive raw sale prices, then to 0. -/
def _calculate_base_price (subject_home : PropertyRecord)
    (comparables : List PropertyRecord) : ℝ :=
  if comparables = [] then 0
  else
    let subject_sqft := subjectSqftEff subject_home
    let usable := usableComps comparables
    let prices := usable.map (fun c => compPrice c / compSqft c * subject_sqft)
    let knn_weights := usable.map (fun c => 1 / (1 + compKnnDistance c))
    if usable = [] then
      let fallback := (comparables.filter (fun c => decide (0 < compPrice c))).map compPrice
      if fallback = [] then 0 else listMean fallback
    else
      let total_weight := knn_weights.sum
      if total_weight = 0 then listMean prices
      else ((prices.zip knn_weights).map (fun pw => pw.1 * pw.2)).sum / total_weight

/-- `PriceEstimator._calculate_condition_adjustment`: fixed lookup by label
(unknown labels give 0.0) plus the `(condition_score - 70) / 1000` fine-tune. -/
def _calculate_condition_adjustment (condition_summary : ConditionSummary) : ℝ :=
  let condition := condition_summary.overall_condition.getD "Fair"
  let condition_score := condition_summary.condition_score.getD 70
  let base_adjustment : ℝ :=
    if condition = "Excellent" then 0.08
    else if condition = "Good" then 0.03
    else if condition = "Fair" then 0.00
    else if condition = "Poor" then -0.10
    else 0.0
  base_adjustment + (condition_score - 70) / 1000

/-- The adjustments dictionary built by `_calculate_feature_adjustments`:
`none` models an absent key. -/
structure FeatureAdjustments where
  pool : Option ℝ
  garage : Option ℝ
  age : Option ℝ

/-- Python `sum(adjustments.values())`. -/
def FeatureAdjustments.total (a : FeatureAdjustments) : ℝ :=
  a.pool.getD 0 + a.garage.getD 0 + a.age.getD 0

/-- The `round(v * 100, 2)` map applied to the adjustments for reporting. -/
def FeatureAdjustments.toPct (a : FeatureAdjustments) : FeatureAdjustments :=
  { pool := a.pool.map (fun v => roundTo 2 (v * 100))
    garage := a.garage.map (fun v => roundTo 2 (v * 100))
    age := a.age.map (fun v => roundTo 2 (v * 100)) }

/-- `PriceEstimator._calculate_feature_adjustments`: majority-rule pool and
garage adjustments on the `pool` / `garage` keys, and a clamped age
adjustment included only when its magnitude exceeds 0.005. -/
def _calculate_feature_adjustments (subject_home : PropertyRecord)
    (comparables : List PropertyRecord) : FeatureAdjustments :=
  let n : ℝ := comparables.length
  let subject_has_pool := subject_home.pool.getD false
  let comp_pool_avg : ℝ :=
    ((comparables.filter (fun c => c.pool.getD false)).length : ℝ) / n
  let poolAdj : Option ℝ :=
    if subject_has_pool ∧ comp_pool_avg < 0.5 then some 0.03
    else if ¬subject_has_pool ∧ 0.5 < comp_pool_avg then some (-0.03)
    else none
  let subject_has_garage := subject_home.garage.getD false
  let comp_garage_avg : ℝ :=
    ((comparables.filter (fun c => c.garage.getD false)).length : ℝ) / n
  let garageAdj : Option ℝ :=
    if subject_has_garage ∧ comp_garage_avg < 0.5 then some 0.02
    else if ¬subject_has_garage ∧ 0.5 < comp_garage_avg then some (-0.02)
    else none
  let subject_age : ℝ := 2025 - subject_home.year_built.getD 2000
  let avg_comp_age := listMean (comparables.map (fun c => 2025 - c.year_built.getD 2000))
  let age_diff := avg_comp_age - subject_age
  let age_adjustment := min 0.05 (max (-0.05) (age_diff / 10 * 0.01))
  let ageAdj : Option ℝ :=
    if 0.005 < |age_adjustment| then some age_adjustment else none
  { pool := poolAdj, garage := garageAdj, age := ageAdj }

/-- The `range_pct` computed inside `_calculate_price_range`: the coefficient
of variation of the raw sale prices clamped to `[0.05, 0.15]` when at least
two comparables are present, else 0.10. -/
def rangePct (comparables : List PropertyRecord) : ℝ :=
  let comp_prices := comparables.map (fun c => c.sale_price.getD 0)
  if 1 < comp_prices.length then
    let std_dev := sampleStdev comp_prices
    let mean_price := listMean comp_prices
    let cv := if 0 < mean_price then std_dev / mean_price else 0.1
    min 0.15 (max 0.05 cv)
  else 0.10

/-- The `{'low': ..., 'high': ...}` dictionary of `_calculate_price_range`. -/
structure PriceRange where
  low : ℤ
  high : ℤ

/-- `PriceEstimator._calculate_price_range`. -/
def _calculate_price_range (recommended_price : ℤ)
    (comparables : List PropertyRecord) : PriceRange :=
  let range_pct := rangePct comparables
  { low := truncInt ((recommended_price : ℝ) * (1 - range_pct))
    high := truncInt ((recommended_price : ℝ) * (1 + range_pct)) }

/-- `PriceEstimator._determine_confidence`. -/
def _determine_confidence (comparables : List PropertyRecord)
    (condition_summary : ConditionSummary) : String :=
  if comparables.length < 3 then "Low"
  else
    let avg_similarity := listMean (comparables.map (fun c => c.similarity_score.getD 0))
    let confidence :=
      if 75 ≤ avg_similarity then "High"
      else if 60 ≤ avg_similarity then "Medium"
      else "Low"
    if condition_summary.concerns ≠ [] then
      (if confidence = "High" then "Medium"
       else if confidence = "Medium" then "Low"
       else confidence)
    else confidence

/-- The data interpolated by `_get_methodology_description` into its fixed
English sentence (the sentence itself carries no further information). -/
structure Methodology where
  num_comps : ℕ
  avg_knn_distance : ℝ

/-- `PriceEstimator._get_methodology_description`, modelled as the interpolated
data. -/
def _get_methodology_description (comparables : List PropertyRecord) : Methodology :=
  { num_comps := comparables.length
    avg_knn_distance := listMean (comparables.map (fun c => c.knn_distance.getD 0)) }

/-- The dictionary returned by `estimate_price`. -/
structure PriceRecommendation where
  recommended_price : ℤ
  price_range : PriceRange
  confidence : String
  price_per_sqft : ℝ
  base_price : ℤ
  total_adjustment_pct : ℝ
  condition_adjustment_pct : ℝ
  feature_adjustments_pct : FeatureAdjustments
  methodology : Methodology

/-- `PriceEstimator.estimate_price`: raises (models `ValueError`) on an empty
comparables list, raises (models the `ZeroDivisionError` thrown while
`_calculate_base_price` computes the inverse-distance weights) when a usable
comparable carries `knn_distance = −1`, and otherwise assembles the price
recommendation. -/
def estimate_price (subject_home : PropertyRecord)
    (comparables : List PropertyRecord)
    (condition_summary : ConditionSummary) :
    Except String PriceRecommendation :=
  if comparables = [] then
    Except.error "No comparables provided for price estimation"
  else if divisionErrorComps comparables ≠ [] then
    Except.error "float division by zero"
  else
    let base_price := _calculate_base_price subject_home comparables
    let condition_adjustment := _calculate_condition_adjustment condition_summary
    let feature_adjustments := _calculate_feature_adjustments subject_home comparables
    let total_adjustment := condition_adjustment + feature_adjustments.total
    let recommended_price := truncInt (base_price * (1 + total_adjustment))
    let price_range := _calculate_price_range recommended_price comparables
    let confidence := _determine_confidence comparables condition_summary
    let sqft := subject_home.sqft.getD (subject_home.square_footage.getD 1)
    let price_per_sqft := if 0 < sqft then (recommended_price : ℝ) / sqft else 0
    Except.ok
      { recommended_price := recommended_price
        price_range := price_range
        confidence := confidence
        price_per_sqft := roundTo 2 price_per_sqft
        base_price := truncInt base_price
        total_adjustment_pct := roundTo 2 (total_adjustment * 100)
        condition_adjustment_pct := roundTo 2 (condition_adjustment * 100)
        feature_adjustments_pct := feature_adjustments.toPct
        methodology := _get_methodology_description comparables }

end PriceEstimator

/-! ### General helper lemmas -/

theorem round_mono {x y : ℝ} (h : x ≤ y) : round x ≤ round y := by
  rw [round_eq, round_eq]
  exact Int.floor_mono (by linarith)

theorem roundTo_mono (n : ℕ) {x y : ℝ} (h : x ≤ y) : roundTo n x ≤ roundTo n y := by
  unfold roundTo
  have h10 : (0:ℝ) < 10 ^ n := by positivity
  refine (div_le_div_iff_of_pos_right h10).mpr ?_
  exact_mod_cast round_mono (mul_le_mul_of_nonneg_right h h10.le)

namespace ComparableSelector

/-- C1: for every subject, candidate pool and k, `select_top_comparables`
returns a list of length `min k (pool size)`, sorted in non-decreasing order
of the stored weighted KNN distance; an empty pool yields the empty list and
no error. -/
theorem C1_select_length_sorted (now : Clock) (subject_home : PropertyRecord)
    (pool : List PropertyRecord) (num_comps : ℕ) :
    (select_top_comparables now subject_home pool num_comps).length
        = min num_comps pool.length
    ∧ List.Sorted (fun a b : RankedComparable => a.knn_distance ≤ b.knn_distance)
        (select_top_comparables now subject_home pool num_comps)
    ∧ (pool = [] → select_top_comparables now subject_home pool num_comps = []) := by
  by_cases hpool : pool = []
  · subst hpool
    simp [select_top_comparables]
  · simp only [select_top_comparables, if_neg hpool]
    refine ⟨?_, ?_, fun h => absurd h hpool⟩
    · simp [List.length_take, List.length_mergeSort]
    · have hsorted := @List.sorted_mergeSort _
        (fun a b : PropertyRecord × (Feature → ℝ) × ℝ => decide (a.2.2 ≤ b.2.2))
        (fun a b c hab hbc => by
          simp only [decide_eq_true_eq] at hab hbc ⊢
          exact le_trans hab hbc)
        (fun a b => by
          simp only [Bool.or_eq_true, decide_eq_true_eq]
          exact le_total a.2.2 b.2.2)
        (pool.map (fun comp =>
          (comp, _extract_features now comp,
            _calculate_weighted_euclidean_distance
              (_normalize_features (_extract_features now subject_home)
                (_calculate_feature_stats (pool.map (_extract_features now))))
              (_normalize_features (_extract_features now comp)
                (_calculate_feature_stats (pool.map (_extract_features now)))))))
      have hsorted' := hsorted.imp (fun hab => by
        simpa only [decide_eq_true_eq] using hab)
      have htake := hsorted'.sublist (List.take_sublist num_comps _)
      exact htake.map _ (fun a b hab => roundTo_mono 4 hab)

/-- Witness for C1: an empty candidate pool yields the empty list, no error. -/
theorem C1_select_length_sorted_witness :
    (([] : List PropertyRecord) = []) ∧
      select_top_comparables ⟨2025, 0⟩ {} [] 1 = [] :=
  ⟨rfl, (C1_select_length_sorted ⟨2025, 0⟩ {} [] 1).2.2 rfl⟩

theorem popStd_nonneg (xs : List ℝ) : 0 ≤ popStd xs := Real.sqrt_nonneg _

/-- A feature vector that is 0 everywhere, for concrete pools. -/
def vecZero : Feature → ℝ := fun _ => 0

/-- A feature vector that is 1 everywhere, for concrete pools. -/
def vecOne : Feature → ℝ := fun _ => 1

/-- C4 counterexample: for the pool whose sqft values are 0 and 1, the stored
standard deviation is 1/2, strictly below 1 — the code only replaces a
standard deviation that is exactly 0, it does not floor values below 1. -/
theorem C4_counterexample :
    (_calculate_feature_stats [vecZero, vecOne] Feature.sqft).map Stat.std
        = some (1/2)
    ∧ ¬ (1 ≤ (1/2 : ℝ)) := by
  have hvals : ([vecZero, vecOne].map (fun v => v Feature.sqft)) = [0, 1] := by
    simp [vecZero, vecOne]
  have hm : listMean [(0:ℝ), 1] = 1/2 := by
    norm_num [listMean]
  have hstd : popStd [(0:ℝ), 1] = 1/2 := by
    rw [popStd, hm]
    rw [show (([(0:ℝ), 1].map (fun x => (x - 1/2) ^ 2)).sum / (([(0:ℝ), 1].length : ℕ) : ℝ))
          = ((1/2 : ℝ)) ^ 2 by norm_num]
    exact Real.sqrt_sq (by norm_num)
  refine ⟨?_, by norm_num⟩
  rw [_calculate_feature_stats]
  rw [if_neg (by simp)]
  simp only [hvals, hstd, hm]
  norm_num

/-- C4 (amended): for every non-empty pool and every feature, statistics are
stored with a strictly positive standard deviation — exactly 1 when the
feature is constant across the pool — and normalization divides by that
nonzero value (so a constant feature never causes a division by zero). -/
theorem C4_feature_stats_std_positive (all_features : List (Feature → ℝ))
    (f : Feature) (hne : all_features ≠ []) :
    ∃ st, _calculate_feature_stats all_features f = some st
      ∧ 0 < st.std
      ∧ ((∀ v ∈ all_features, v f = listMean (all_features.map (fun w => w f))) →
          st.std = 1)
      ∧ ∀ g : Feature → ℝ,
          _normalize_features g (_calculate_feature_stats all_features) f
            = (g f - st.mean) / st.std := by
  have hstats : _calculate_feature_stats all_features f =
      some { mean := listMean (all_features.map (fun v => v f)),
             std := if popStd (all_features.map (fun v => v f)) = 0 then 1
                    else popStd (all_features.map (fun v => v f)) } := by
    simp only [_calculate_feature_stats, if_neg hne]
  refine ⟨_, hstats, ?_, ?_, ?_⟩
  · by_cases h0 : popStd (all_features.map (fun v => v f)) = 0
    · simp [h0]
    · simp only [if_neg h0]
      exact lt_of_le_of_ne (popStd_nonneg _) (Ne.symm h0)
  · intro hconst
    have hzero : popStd (all_features.map (fun v => v f)) = 0 := by
      rw [popStd]
      have hsum : ((all_features.map (fun v => v f)).map
          (fun x => (x - listMean (all_features.map (fun v => v f))) ^ 2)).sum = 0 := by
        apply List.sum_eq_zero
        intro x hx
        obtain ⟨y, hy, rfl⟩ := List.mem_map.mp hx
        obtain ⟨v, hv, rfl⟩ := List.mem_map.mp hy
        rw [hconst v hv]
        ring
      rw [hsum]
      simp
    simp [hzero]
  · intro g
    simp [_normalize_features, hstats]

/-- Witness for C4 (amended): a single-vector pool is constant in every
feature, so the stored standard deviation there is exactly 1. -/
theorem C4_feature_stats_std_positive_witness :
    ([vecOne] : List (Feature → ℝ)) ≠ []
    ∧ ∃ st, _calculate_feature_stats [vecOne] Feature.sqft = some st
        ∧ 0 < st.std
        ∧ ((∀ v ∈ ([vecOne] : List (Feature → ℝ)),
              v Feature.sqft
                = listMean (([vecOne] : List (Feature → ℝ)).map
                    (fun w => w Feature.sqft))) →
            st.std = 1)
        ∧ ∀ g : Feature → ℝ,
            _normalize_features g (_calculate_feature_stats [vecOne]) Feature.sqft
              = (g Feature.sqft - st.mean) / st.std :=
  ⟨by simp, C4_feature_stats_std_positive [vecOne] Feature.sqft (by simp)⟩

theorem roundTo_hundred : roundTo 2 (100:ℝ) = 100 := by
  rw [roundTo]
  rw [show (100:ℝ) * 10 ^ (2:ℕ) = ((10000:ℤ) : ℝ) by norm_num]
  rw [round_intCast]
  norm_num

theorem similarity_at_zero : _distance_to_similarity 0 = 100 := by
  rw [_distance_to_similarity, neg_zero, Real.exp_zero, mul_one, roundTo_hundred]

/-- C5 counterexample: the similarity score is rounded to two decimals, so the
distinct distances 0 and 1/1000000 both return exactly 100: the returned score
is not strictly decreasing and does not equal the unrounded `100·e^(−d)`. -/
theorem C5_counterexample :
    (0:ℝ) < 1/1000000
    ∧ _distance_to_similarity 0 = _distance_to_similarity (1/1000000)
    ∧ 100 * Real.exp (-(1/1000000 : ℝ)) ≠ _distance_to_similarity (1/1000000) := by
  have hE1 : Real.exp (-(1/1000000 : ℝ)) ≤ 1 := Real.exp_le_one_iff.mpr (by norm_num)
  have hE2 : (1:ℝ) - 1/1000000 ≤ Real.exp (-(1/1000000 : ℝ)) := by
    have h := Real.add_one_le_exp (-(1/1000000 : ℝ))
    linarith
  have hfloor : ⌊100 * Real.exp (-(1/1000000 : ℝ)) * 10 ^ (2:ℕ) + 1/2⌋ = (10000 : ℤ) := by
    rw [Int.floor_eq_iff]
    constructor
    · push_cast
      nlinarith
    · push_cast
      nlinarith
  have h1 : _distance_to_similarity (1/1000000) = 100 := by
    rw [_distance_to_similarity, roundTo, round_eq, hfloor]
    norm_num
  refine ⟨by norm_num, by rw [similarity_at_zero, h1], ?_⟩
  rw [h1]
  have hlt : 100 * Real.exp (-(1/1000000 : ℝ)) < 100 := by
    have hne : Real.exp (-(1/1000000 : ℝ)) ≠ 1 := by
      intro h
      rw [Real.exp_eq_one_iff] at h
      norm_num at h
    have := lt_of_le_of_ne hE1 hne
    linarith
  exact ne_of_lt hlt

/-- C5 (amended): the returned similarity is `100·e^(−d)` rounded to two
decimals: it is exactly 100 at distance 0, non-strictly decreasing in the
distance, at most 100 for nonnegative distances, and the unrounded value
`100·e^(−d)` is strictly decreasing. -/
theorem C5_similarity_monotone (d1 d2 : ℝ) (h12 : d1 ≤ d2) :
    _distance_to_similarity 0 = 100
    ∧ _distance_to_similarity d2 ≤ _distance_to_similarity d1
    ∧ (0 ≤ d1 → _distance_to_similarity d1 ≤ 100)
    ∧ (d1 < d2 → 100 * Real.exp (-d2) < 100 * Real.exp (-d1)) := by
  refine ⟨similarity_at_zero, ?_, ?_, ?_⟩
  · apply roundTo_mono
    have := Real.exp_le_exp.mpr (neg_le_neg h12)
    linarith
  · intro h0
    have hE : Real.exp (-d1) ≤ 1 := Real.exp_le_one_iff.mpr (by linarith)
    calc _distance_to_similarity d1 ≤ roundTo 2 100 := roundTo_mono 2 (by linarith)
    _ = 100 := roundTo_hundred
  · intro hlt
    have := Real.exp_lt_exp.mpr (neg_lt_neg hlt)
    linarith

/-- Witness for C5 (amended) at the concrete distances 0 and 1. -/
theorem C5_similarity_monotone_witness :
    (0:ℝ) ≤ 1
    ∧ (_distance_to_similarity 0 = 100
       ∧ _distance_to_similarity 1 ≤ _distance_to_similarity 0
       ∧ ((0:ℝ) ≤ 0 → _distance_to_similarity 0 ≤ 100)
       ∧ ((0:ℝ) < 1 → 100 * Real.exp (-(1:ℝ)) < 100 * Real.exp (-(0:ℝ)))) :=
  ⟨by norm_num, C5_similarity_monotone 0 1 (by norm_num)⟩

/-- C6 counterexample: a record with no explicit days-since-sale and no sale
date at all extracts `days_since_sale = 0`, not the claimed default of 90. -/
theorem C6_counterexample :
    _extract_features ⟨2025, 0⟩ {} Feature.days_since_sale = 0
    ∧ (0:ℝ) ≠ 90 := by
  constructor
  · simp [_extract_features]
  · norm_num

/-- C6 (amended): an explicit non-zero `days_since_sale` wins; otherwise a
record with a parsable sale date gets the whole days between that instant and
the current moment, 90 when a sale date exists but fails to parse, and 0 (not
90) when no sale date exists at all. -/
theorem C6_days_since_sale (now : Clock) (p : PropertyRecord) :
    (p.days_since_sale.getD 0 ≠ 0 →
      _extract_features now p Feature.days_since_sale = p.days_since_sale.getD 0)
    ∧ (p.days_since_sale.getD 0 = 0 → ∀ t : ℤ, p.sale_date = some (some t) →
      _extract_features now p Feature.days_since_sale
        = (((now.epochSeconds - t).fdiv 86400 : ℤ) : ℝ))
    ∧ (p.days_since_sale.getD 0 = 0 → p.sale_date = some none →
      _extract_features now p Feature.days_since_sale = 90)
    ∧ (p.days_since_sale.getD 0 = 0 → p.sale_date = none →
      _extract_features now p Feature.days_since_sale = 0) := by
  refine ⟨fun h => ?_, fun h t ht => ?_, fun h hs => ?_, fun h hs => ?_⟩
  · simp [_extract_features, h]
  · simp [_extract_features, h, ht]
  · simp [_extract_features, h, hs]
  · simp [_extract_features, h, hs]

/-- Concrete record whose sale date parses to the epoch instant 0. -/
def datedRecord : PropertyRecord := { sale_date := some (some 0) }

/-- Witness for C6 (amended): thirty days (2592000 seconds) after the sale
instant, the extracted days-since-sale feature is 30. -/
theorem C6_days_since_sale_witness :
    datedRecord.days_since_sale.getD 0 = 0
    ∧ datedRecord.sale_date = some (some 0)
    ∧ _extract_features ⟨2025, 2592000⟩ datedRecord Feature.days_since_sale = 30 := by
  refine ⟨rfl, rfl, ?_⟩
  have h := (C6_days_since_sale ⟨2025, 2592000⟩ datedRecord).2.1 rfl 0 rfl
  have hfd : Int.fdiv (2592000 - 0) 86400 = 30 := by decide
  rw [h, hfd]
  norm_num

theorem mergeSort_singleton {α : Type _} (a : α) (le : α → α → Bool) :
    List.mergeSort [a] le = [a] :=
  List.perm_singleton.mp (List.mergeSort_perm [a] le)

/-- The score-breakdown days-since-sale values of a singleton selection: the
selector exposes the comparable's extracted days-since-sale feature. -/
theorem select_one_days (now : Clock) (s c : PropertyRecord) :
    (select_top_comparables now s [c] 1).map
        (fun r => r.score_breakdown.days_since_sale)
      = [_extract_features now c Feature.days_since_sale] := by
  simp [select_top_comparables, mergeSort_singleton, _get_score_breakdown]

/-- C9 counterexample: `select_top_comparables` reads the ambient wall clock:
identical inputs run at two different moments give different results when a
comparable carries a parsable sale date, because the extracted days-since-sale
feature (reported in the score breakdown) moves with the clock. -/
theorem C9_counterexample :
    select_top_comparables ⟨2025, 0⟩ {} [datedRecord] 1
      ≠ select_top_comparables ⟨2025, 864000⟩ {} [datedRecord] 1 := by
  intro heq
  have h1 := select_one_days ⟨2025, 0⟩ {} datedRecord
  have h2 := select_one_days ⟨2025, 864000⟩ {} datedRecord
  rw [heq] at h1
  have h3 := h1.symm.trans h2
  simp only [List.cons.injEq, and_true] at h3
  have he1 : _extract_features ⟨2025, 0⟩ datedRecord Feature.days_since_sale = 0 := by
    have hfd : Int.fdiv (0 - 0) 86400 = 0 := by decide
    simp [_extract_features, datedRecord, hfd]
  have he2 : _extract_features ⟨2025, 864000⟩ datedRecord Feature.days_since_sale = 10 := by
    have hfd : Int.fdiv (864000 - 0) 86400 = 10 := by decide
    simp [_extract_features, datedRecord, hfd]
  rw [he1, he2] at h3
  norm_num at h3

theorem extract_features_clock_free (clk1 clk2 : Clock) (r : PropertyRecord)
    (hy : r.year_built ≠ none)
    (hd : r.days_since_sale.getD 0 ≠ 0 ∨ r.sale_date = none) :
    _extract_features clk1 r = _extract_features clk2 r := by
  funext f
  cases f
  case year_built =>
    obtain ⟨y, hy'⟩ := Option.ne_none_iff_exists'.mp hy
    simp [_extract_features, hy']
  case days_since_sale =>
    rcases hd with h | h
    · simp [_extract_features, h]
    · simp only [_extract_features, h]
  all_goals simp [_extract_features]

/-- C9 (amended): `select_top_comparables` is deterministic in its inputs plus
the current time, and is clock-independent whenever every involved record
carries an explicit year built and either an explicit non-zero days-since-sale
or no sale date (the cases in which the extractor consults `datetime.now()`);
`estimate_price` takes no clock at all in the model. -/
theorem C9_select_clock_independent (clk1 clk2 : Clock) (s : PropertyRecord)
    (pool : List PropertyRecord) (k : ℕ)
    (h : ∀ r ∈ s :: pool, r.year_built ≠ none
          ∧ (r.days_since_sale.getD 0 ≠ 0 ∨ r.sale_date = none)) :
    select_top_comparables clk1 s pool k = select_top_comparables clk2 s pool k := by
  have hs : _extract_features clk1 s = _extract_features clk2 s :=
    extract_features_clock_free _ _ _ (h s (by simp)).1 (h s (by simp)).2
  have hp : ∀ c ∈ pool, _extract_features clk1 c = _extract_features clk2 c :=
    fun c hc =>
      extract_features_clock_free _ _ _
        (h c (List.mem_cons_of_mem _ hc)).1 (h c (List.mem_cons_of_mem _ hc)).2
  by_cases hpool : pool = []
  · simp [select_top_comparables, hpool]
  · simp only [select_top_comparables, if_neg hpool]
    rw [hs, List.map_congr_left hp]
    congr 1
    congr 1
    congr 1
    apply List.map_congr_left
    intro c hc
    rw [hp c hc]

/-- A record with an explicit year built and an explicit non-zero
days-since-sale, so its features never consult the clock. -/
def fixedRecord : PropertyRecord :=
  { year_built := some 1990, days_since_sale := some 30 }

/-- Witness for C9 (amended) at two concrete clocks. -/
theorem C9_select_clock_independent_witness :
    (∀ r ∈ (fixedRecord :: [fixedRecord]), r.year_built ≠ none
        ∧ (r.days_since_sale.getD 0 ≠ 0 ∨ r.sale_date = none))
    ∧ select_top_comparables ⟨2025, 0⟩ fixedRecord [fixedRecord] 2
        = select_top_comparables ⟨2031, 999999⟩ fixedRecord [fixedRecord] 2 := by
  have h : ∀ r ∈ (fixedRecord :: [fixedRecord]), r.year_built ≠ none
      ∧ (r.days_since_sale.getD 0 ≠ 0 ∨ r.sale_date = none) := by
    intro r hr
    rcases List.mem_cons.mp hr with rfl | hr2
    · exact ⟨by simp [fixedRecord], Or.inl (by norm_num [fixedRecord])⟩
    · rcases List.mem_singleton.mp hr2 with rfl
      exact ⟨by simp [fixedRecord], Or.inl (by norm_num [fixedRecord])⟩
  exact ⟨h, C9_select_clock_independent ⟨2025, 0⟩ ⟨2031, 999999⟩ fixedRecord [fixedRecord] 2 h⟩

end ComparableSelector

namespace PriceEstimator

/-- C2: for a non-empty comparables list whose KNN distances are nonnegative
(as the selector produces them), the base price is the weighted mean of the
size-normalized prices `price_per_sqft * subject_sqft` over the comparables
with positive size and positive sale price, with weights `1/(1+distance)`;
with no usable comparable it is the unweighted mean of the positive raw sale
prices, and 0 when there are none at all. -/
theorem C2_base_price_weighted_mean (subject_home : PropertyRecord)
    (comparables : List PropertyRecord) (hne : comparables ≠ [])
    (hd : ∀ c ∈ comparables, 0 ≤ compKnnDistance c) :
    (usableComps comparables ≠ [] →
      _calculate_base_price subject_home comparables =
        ((usableComps comparables).map (fun c =>
            compPrice c / compSqft c * subjectSqftEff subject_home
              * (1 / (1 + compKnnDistance c)))).sum
          / ((usableComps comparables).map (fun c => 1 / (1 + compKnnDistance c))).sum)
    ∧ (usableComps comparables = [] →
        (comparables.filter (fun c => decide (0 < compPrice c))).map compPrice ≠ [] →
        _calculate_base_price subject_home comparables =
          listMean ((comparables.filter (fun c => decide (0 < compPrice c))).map compPrice))
    ∧ (usableComps comparables = [] →
        (comparables.filter (fun c => decide (0 < compPrice c))).map compPrice = [] →
        _calculate_base_price subject_home comparables = 0) := by
  refine ⟨fun hu => ?_, fun hu hf => ?_, fun hu hf => ?_⟩
  · have hpos : 0 < ((usableComps comparables).map
        (fun c => 1 / (1 + compKnnDistance c))).sum := by
      apply List.sum_pos
      · intro x hx
        obtain ⟨c, hc, rfl⟩ := List.mem_map.mp hx
        have h0 := hd c (List.mem_of_mem_filter hc)
        positivity
      · simpa using hu
    simp only [_calculate_base_price, if_neg hne, if_neg hu, if_neg (ne_of_gt hpos)]
    rw [List.zip_map', List.map_map]
    rfl
  · simp only [_calculate_base_price, if_neg hne, if_pos hu, if_neg hf]
  · simp only [_calculate_base_price, if_neg hne, if_pos hu, if_pos hf]

/-- The concrete subject of the worked example of the specification. -/
def subj2400 : PropertyRecord := { sqft := some 2400 }

/-- The concrete comparable of the worked example of the specification. -/
def comp600k : PropertyRecord :=
  { sqft := some 2400, sale_price := some 600000, knn_distance := some 0 }

/-- Witness for C2: subject sqft 2400, a single comparable with sqft 2400,
sale price 600000 and distance 0 gives base price exactly 600000. -/
theorem C2_base_price_weighted_mean_witness :
    ([comp600k] : List PropertyRecord) ≠ []
    ∧ _calculate_base_price subj2400 [comp600k] = 600000 := by
  have husable : usableComps [comp600k] = [comp600k] := by
    have hq : (0:ℝ) < compSqft comp600k ∧ (0:ℝ) < compPrice comp600k := by
      constructor <;> norm_num [compSqft, compPrice, comp600k]
    simp [usableComps, List.filter, hq]
  refine ⟨by simp, ?_⟩
  have h := (C2_base_price_weighted_mean subj2400 [comp600k] (by simp)
      (by
        intro c hc
        simp only [List.mem_singleton] at hc
        subst hc
        simp [compKnnDistance, comp600k])).1
    (by rw [husable]; simp)
  rw [h, husable]
  norm_num [compPrice, compSqft, compKnnDistance, subjectSqftEff, subj2400, comp600k]

/-- Nonnegative KNN distances (as the selector produces them) keep every
comparable away from the division-by-zero weight. -/
theorem divisionErrorComps_eq_nil_of_nonneg (comps : List PropertyRecord)
    (h : ∀ c ∈ comps, 0 ≤ compKnnDistance c) :
    divisionErrorComps comps = [] := by
  rw [divisionErrorComps]
  refine List.filter_eq_nil_iff.mpr ?_
  intro c hc
  have h0 := h c (List.mem_of_mem_filter hc)
  simp only [decide_eq_true_eq]
  intro hz
  linarith

/-- A comparable with positive size and price whose knn distance is −1, the
value at which the inverse-distance weight divides by zero. -/
def negOneComp : PropertyRecord :=
  { sqft := some 1000, sale_price := some 100000, knn_distance := some (-1) }

/-- C3 counterexample: a non-empty comparables list on which `estimate_price`
raises — the single comparable passes the positive sqft/price filter and its
knn distance of −1 sends the weight `1/(1+d)` into a division by zero — so
'raises iff empty' and 'every non-empty list returns without raising' both
fail. -/
theorem C3_counterexample :
    ([negOneComp] : List PropertyRecord) ≠ []
    ∧ estimate_price {} [negOneComp] {}
        = Except.error "float division by zero" := by
  refine ⟨by simp, ?_⟩
  have hq : (0:ℝ) < compSqft negOneComp ∧ (0:ℝ) < compPrice negOneComp := by
    constructor <;> norm_num [compSqft, compPrice, negOneComp]
  have husable : usableComps [negOneComp] = [negOneComp] := by
    simp [usableComps, List.filter, hq]
  have hz : (1:ℝ) + compKnnDistance negOneComp = 0 := by
    norm_num [compKnnDistance, negOneComp]
  have hdiv : divisionErrorComps [negOneComp] = [negOneComp] := by
    simp [divisionErrorComps, husable, List.filter, hz]
  rw [estimate_price, if_neg (by simp : ¬([negOneComp] = []))]
  rw [if_pos (by rw [hdiv]; simp)]

/-- C3 (amended): `estimate_price` raises the empty-input error exactly on an
empty comparables list; a non-empty list raises exactly when some comparable
with positive size and positive price carries `knn_distance = −1` (Python's
`ZeroDivisionError` in the inverse-distance weight) — a region nonnegative
selector distances never reach — and otherwise, in particular when every
optional attribute is missing and hence defaulted, it returns a
recommendation without raising. -/
theorem C3_estimate_price_ok_iff (subject_home : PropertyRecord)
    (comparables : List PropertyRecord) (condition_summary : ConditionSummary) :
    ((estimate_price subject_home comparables condition_summary).isOk = true
      ↔ comparables ≠ [] ∧ divisionErrorComps comparables = [])
    ∧ (comparables = [] →
        estimate_price subject_home comparables condition_summary =
          Except.error "No comparables provided for price estimation")
    ∧ (comparables ≠ [] → divisionErrorComps comparables ≠ [] →
        estimate_price subject_home comparables condition_summary =
          Except.error "float division by zero")
    ∧ ((∀ c ∈ comparables, 0 ≤ compKnnDistance c) →
        divisionErrorComps comparables = []) := by
  refine ⟨?_, ?_, ?_, divisionErrorComps_eq_nil_of_nonneg comparables⟩
  · by_cases h : comparables = []
    · simp [estimate_price, h, Except.isOk, Except.toBool]
    · by_cases hd : divisionErrorComps comparables = []
      · rw [estimate_price, if_neg h, if_neg (fun hne => hne hd)]
        simp [Except.isOk, Except.toBool, h, hd]
      · rw [estimate_price, if_neg h, if_pos hd]
        simp [Except.isOk, Except.toBool, h, hd]
  · intro h
    rw [estimate_price, if_pos h]
  · intro h hd
    rw [estimate_price, if_neg h, if_pos hd]

/-- Witness for C3 (amended): a single comparable with every optional
attribute missing produces a recommendation (its distance defaults to 1, far
from the division-by-zero region). -/
theorem C3_estimate_price_ok_iff_witness :
    (estimate_price {} [{}] {}).isOk = true := by
  refine (C3_estimate_price_ok_iff {} [{}] {}).1.mpr
    ⟨by simp, (C3_estimate_price_ok_iff {} [{}] {}).2.2.2 ?_⟩
  intro c hc
  rcases List.mem_singleton.mp hc with rfl
  norm_num [compKnnDistance]

/-- Number of comparables whose `pool` flag is set. -/
def poolCount (comparables : List PropertyRecord) : ℕ :=
  (comparables.filter (fun c => c.pool.getD false)).length

/-- Subject for the C7 counterexample: a private-pool flag but no `pool` key. -/
def privatePoolSubj : PropertyRecord := { has_private_pool := some true }

/-- C7 counterexample: the subject has a pool in the claimed sense (its
private-pool flag is set) and none of the single comparable does, yet the
feature adjustments carry no pool entry: `_calculate_feature_adjustments`
reads the `pool` key, not the private/community pool flags. -/
theorem C7_counterexample :
    (privatePoolSubj.has_private_pool.getD false
        || privatePoolSubj.has_community_pool.getD false) = true
    ∧ ((([({} : PropertyRecord)].filter
          (fun c => c.has_private_pool.getD false
            || c.has_community_pool.getD false)).length : ℝ)
        / (([({} : PropertyRecord)] : List PropertyRecord).length : ℝ) < 1/2)
    ∧ (_calculate_feature_adjustments privatePoolSubj [{}]).pool = none := by
  refine ⟨rfl, by norm_num, ?_⟩
  simp only [_calculate_feature_adjustments, privatePoolSubj]
  norm_num

/-- C7 (amended): the pool adjustment is keyed on the records' `pool` flag
(the private/community pool flags feed only the KNN `has_pool` feature, not
the price adjustment): +0.03 exactly when the subject's `pool` flag is set
and strictly fewer than half the comparables have theirs set, −0.03 exactly
when it is unset and strictly more than half the comparables have theirs set,
and no entry otherwise; in particular, a subject without the flag against 3
of 4 flagged comparables gets −0.03. -/
theorem C7_pool_adjustment (subject_home : PropertyRecord)
    (comparables : List PropertyRecord) (hne : comparables ≠ []) :
    (_calculate_feature_adjustments subject_home comparables).pool =
      (if subject_home.pool.getD false = true
          ∧ 2 * poolCount comparables < comparables.length then some 0.03
       else if subject_home.pool.getD false = false
          ∧ comparables.length < 2 * poolCount comparables then some (-0.03)
       else none) := by
  have hn : (0:ℝ) < (comparables.length : ℝ) := by
    exact_mod_cast List.length_pos.mpr hne
  have havg_lt : ((poolCount comparables : ℝ) / (comparables.length : ℝ) < 0.5)
      ↔ 2 * poolCount comparables < comparables.length := by
    rw [div_lt_iff₀ hn]
    constructor
    · intro hx
      have hx' : ((2 * poolCount comparables : ℕ) : ℝ) < (comparables.length : ℝ) := by
        push_cast
        nlinarith
      exact_mod_cast hx'
    · intro hx
      have hx' : ((2 * poolCount comparables : ℕ) : ℝ) < (comparables.length : ℝ) := by
        exact_mod_cast hx
      push_cast at hx'
      nlinarith
  have havg_gt : (0.5 < (poolCount comparables : ℝ) / (comparables.length : ℝ))
      ↔ comparables.length < 2 * poolCount comparables := by
    rw [lt_div_iff₀ hn]
    constructor
    · intro hx
      have hx' : ((comparables.length : ℕ) : ℝ) < ((2 * poolCount comparables : ℕ) : ℝ) := by
        push_cast
        nlinarith
      exact_mod_cast hx'
    · intro hx
      have hx' : ((comparables.length : ℕ) : ℝ) < ((2 * poolCount comparables : ℕ) : ℝ) := by
        exact_mod_cast hx
      push_cast at hx'
      nlinarith
  simp only [_calculate_feature_adjustments, poolCount] at havg_lt havg_gt ⊢
  simp only [havg_lt, havg_gt, Bool.not_eq_true]

/-- A comparable whose `pool` flag is set. -/
def poolComp : PropertyRecord := { pool := some true }

/-- Witness for C7 (amended): subject without the `pool` flag, 3 of 4
comparables with it set (75% is more than half) gives adjustment −0.03. -/
theorem C7_pool_adjustment_witness :
    ([poolComp, poolComp, poolComp, {}] : List PropertyRecord) ≠ []
    ∧ (_calculate_feature_adjustments {} [poolComp, poolComp, poolComp, {}]).pool
        = some (-0.03) := by
  refine ⟨by simp, ?_⟩
  rw [C7_pool_adjustment {} [poolComp, poolComp, poolComp, {}] (by simp)]
  rw [if_neg ?hneg, if_pos ?hpos]
  case hneg =>
    intro hcontra
    simp [poolComp] at hcontra
  case hpos =>
    refine ⟨rfl, ?_⟩
    show ([poolComp, poolComp, poolComp, {}] : List PropertyRecord).length
      < 2 * poolCount [poolComp, poolComp, poolComp, {}]
    have hcount : poolCount [poolComp, poolComp, poolComp, {}] = 3 := by
      simp [poolCount, List.filter, poolComp]
    rw [hcount]
    norm_num

/-- Unfolding a successful `estimate_price` call: the comparables are
non-empty, the recommended price is the truncated adjusted base price, and
the returned range is `_calculate_price_range` at that price. -/
theorem estimate_price_ok_elim {s : PropertyRecord} {comps : List PropertyRecord}
    {cond : ConditionSummary} {r : PriceRecommendation}
    (h : estimate_price s comps cond = Except.ok r) :
    comps ≠ []
    ∧ r.recommended_price = truncInt (_calculate_base_price s comps *
        (1 + (_calculate_condition_adjustment cond
          + (_calculate_feature_adjustments s comps).total)))
    ∧ r.price_range = _calculate_price_range r.recommended_price comps := by
  by_cases hc : comps = []
  · rw [estimate_price, if_pos hc] at h
    cases h
  · rw [estimate_price, if_neg hc] at h
    by_cases hd : divisionErrorComps comps = []
    · rw [if_neg (fun hne => hne hd)] at h
      injection h with h2
      subst h2
      exact ⟨hc, rfl, rfl⟩
    · rw [if_pos hd] at h
      cases h

/-- C8 (amended): the range percent always lies in `[0.05, 0.15]` (0.10 with
fewer than two comparables), low and high are `price·(1∓pct)` truncated to
integers, and they bracket the recommended price whenever it is nonnegative
(with a negative recommended price the bracketing fails, see the
counterexample); every successful `estimate_price` call returns exactly this
range at its recommended price. -/
theorem C8_price_range_brackets (recommended_price : ℤ)
    (comparables : List PropertyRecord) (h0 : 0 ≤ recommended_price) :
    (0.05 ≤ rangePct comparables ∧ rangePct comparables ≤ 0.15)
    ∧ (comparables.length < 2 → rangePct comparables = 0.10)
    ∧ (_calculate_price_range recommended_price comparables).low
        = truncInt ((recommended_price : ℝ) * (1 - rangePct comparables))
    ∧ (_calculate_price_range recommended_price comparables).high
        = truncInt ((recommended_price : ℝ) * (1 + rangePct comparables))
    ∧ (_calculate_price_range recommended_price comparables).low ≤ recommended_price
    ∧ recommended_price ≤ (_calculate_price_range recommended_price comparables).high
    ∧ (∀ s cond r, estimate_price s comparables cond = Except.ok r →
        r.price_range = _calculate_price_range r.recommended_price comparables) := by
  have hpct : 0.05 ≤ rangePct comparables ∧ rangePct comparables ≤ 0.15 := by
    simp only [rangePct]
    split_ifs
    · exact ⟨le_min (by norm_num) (le_max_left _ _), min_le_left _ _⟩
    · exact ⟨le_min (by norm_num) (le_max_left _ _), min_le_left _ _⟩
    · constructor <;> norm_num
  have hsmall : comparables.length < 2 → rangePct comparables = 0.10 := by
    intro hlen
    simp only [rangePct, List.length_map]
    rw [if_neg (by omega)]
  have hr0 : (0:ℝ) ≤ (recommended_price : ℝ) := by exact_mod_cast h0
  have hlow : (_calculate_price_range recommended_price comparables).low
      ≤ recommended_price := by
    simp only [_calculate_price_range]
    have hx : (0:ℝ) ≤ (recommended_price : ℝ) * (1 - rangePct comparables) := by
      apply mul_nonneg hr0
      linarith [hpct.2]
    rw [truncInt, if_pos hx]
    have hle : (recommended_price : ℝ) * (1 - rangePct comparables)
        ≤ (recommended_price : ℝ) := by
      nlinarith [hpct.1]
    calc ⌊(recommended_price : ℝ) * (1 - rangePct comparables)⌋
        ≤ ⌊(recommended_price : ℝ)⌋ := Int.floor_mono hle
      _ = recommended_price := Int.floor_intCast _
  have hhigh : recommended_price
      ≤ (_calculate_price_range recommended_price comparables).high := by
    simp only [_calculate_price_range]
    have hx : (0:ℝ) ≤ (recommended_price : ℝ) * (1 + rangePct comparables) := by
      apply mul_nonneg hr0
      linarith [hpct.1]
    rw [truncInt, if_pos hx]
    refine Int.le_floor.mpr ?_
    nlinarith [hpct.1]
  exact ⟨hpct, hsmall, rfl, rfl, hlow, hhigh,
    fun s cond r h => (estimate_price_ok_elim h).2.2⟩

/-- Witness for C8 (amended) at price 100 and an empty comparables list. -/
theorem C8_price_range_brackets_witness :
    (0:ℤ) ≤ 100
    ∧ ((0.05 ≤ rangePct [] ∧ rangePct [] ≤ 0.15)
       ∧ (([] : List PropertyRecord).length < 2 → rangePct [] = 0.10)
       ∧ (_calculate_price_range 100 []).low
           = truncInt (((100:ℤ) : ℝ) * (1 - rangePct []))
       ∧ (_calculate_price_range 100 []).high
           = truncInt (((100:ℤ) : ℝ) * (1 + rangePct []))
       ∧ (_calculate_price_range 100 []).low ≤ 100
       ∧ (100:ℤ) ≤ (_calculate_price_range 100 []).high
       ∧ (∀ s cond r, estimate_price s [] cond = Except.ok r →
           r.price_range = _calculate_price_range r.recommended_price [])) :=
  ⟨by norm_num, C8_price_range_brackets 100 [] (by norm_num)⟩

/-- Subject with a negative explicit square footage, used to break the
bracketing claim. -/
def negSubj : PropertyRecord := { sqft := some (-5) }

/-- A well-formed comparable: 1000 sqft sold at 100000 with distance 0. -/
def bigComp : PropertyRecord :=
  { sqft := some 1000, sale_price := some 100000, knn_distance := some 0 }

theorem negSubj_base : _calculate_base_price negSubj [bigComp] = -500 := by
  have hq : (0:ℝ) < compSqft bigComp ∧ (0:ℝ) < compPrice bigComp := by
    constructor <;> norm_num [compSqft, compPrice, bigComp]
  have husable : usableComps [bigComp] = [bigComp] := by
    simp [usableComps, List.filter, hq]
  have hk : compKnnDistance bigComp = 0 := rfl
  have hp : compPrice bigComp = 100000 := rfl
  have hs : compSqft bigComp = 1000 := rfl
  have hsqft : subjectSqftEff negSubj = -5 := by
    rw [subjectSqftEff]
    norm_num [negSubj]
  simp only [_calculate_base_price, if_neg (by simp : ¬([bigComp] = [])), husable,
    List.map_cons, List.map_nil, hk, hp, hs, hsqft]
  rw [if_neg (by simp)]
  norm_num

theorem negSubj_adjust :
    _calculate_condition_adjustment {}
      + (_calculate_feature_adjustments negSubj [bigComp]).total = 0 := by
  have h1 : _calculate_condition_adjustment {} = 0 := by
    simp only [_calculate_condition_adjustment]
    norm_num
    rw [if_neg (by decide), if_neg (by decide)]
  have h2 : (_calculate_feature_adjustments negSubj [bigComp]).total = 0 := by
    simp only [_calculate_feature_adjustments, FeatureAdjustments.total]
    have hage : listMean ([bigComp].map (fun c => 2025 - c.year_built.getD 2000))
        - (2025 - negSubj.year_built.getD 2000) = 0 := by
      norm_num [listMean, negSubj, bigComp]
    norm_num [hage, negSubj, bigComp, List.filter, listMean]
  rw [h1, h2]
  norm_num

theorem negSubj_ok :
    ∃ r, estimate_price negSubj [bigComp] {} = Except.ok r := by
  have hdiv : divisionErrorComps [bigComp] = [] := by
    refine divisionErrorComps_eq_nil_of_nonneg [bigComp] ?_
    intro c hc
    rcases List.mem_singleton.mp hc with rfl
    norm_num [compKnnDistance, bigComp]
  rw [estimate_price, if_neg (by simp : ¬([bigComp] = [])),
    if_neg (fun hne => hne hdiv)]
  exact ⟨_, rfl⟩

theorem negSubj_recommended {r : PriceRecommendation}
    (hr : estimate_price negSubj [bigComp] {} = Except.ok r) :
    r.recommended_price = -500
    ∧ r.price_range = _calculate_price_range (-500) [bigComp] := by
  obtain ⟨-, hrec, hrange⟩ := estimate_price_ok_elim hr
  have hrec' : r.recommended_price = -500 := by
    rw [hrec, negSubj_base, negSubj_adjust]
    rw [show ((-500:ℝ) * (1 + 0)) = (((-500:ℤ)) : ℝ) by norm_num]
    rw [truncInt, if_neg (by norm_num)]
    exact_mod_cast Int.ceil_intCast (-500)
  exact ⟨hrec', by rw [hrange, hrec']⟩

/-- C8 counterexample: a successful `estimate_price` call (subject with
negative square footage) whose recommended price is −500 but whose range low
is −450, so `low ≤ recommended_price` fails. -/
theorem C8_counterexample :
    ∃ r, estimate_price negSubj [bigComp] {} = Except.ok r
      ∧ r.recommended_price = -500
      ∧ r.price_range.low = -450
      ∧ ¬(r.price_range.low ≤ r.recommended_price) := by
  obtain ⟨r, hr⟩ := negSubj_ok
  obtain ⟨hrec, hrange⟩ := negSubj_recommended hr
  have hpct : rangePct [bigComp] = 0.10 := by
    simp only [rangePct, List.length_map]
    rw [if_neg (by norm_num)]
  have hlow : r.price_range.low = -450 := by
    rw [hrange]
    simp only [_calculate_price_range, hpct]
    rw [show (((-500:ℤ)) : ℝ) * (1 - 0.10) = (((-450:ℤ)) : ℝ) by push_cast; norm_num]
    rw [truncInt, if_neg (by push_cast; norm_num)]
    exact_mod_cast Int.ceil_intCast (-450)
  refine ⟨r, hr, hrec, hlow, ?_⟩
  rw [hlow, hrec]
  decide

theorem condition_adjustment_bounds (cs : ConditionSummary)
    (h0 : 0 ≤ cs.condition_score.getD 70) (h100 : cs.condition_score.getD 70 ≤ 100) :
    -0.17 ≤ _calculate_condition_adjustment cs
    ∧ _calculate_condition_adjustment cs ≤ 0.11 := by
  simp only [_calculate_condition_adjustment]
  split_ifs <;> constructor <;> linarith

theorem feature_adjustments_bounds (s : PropertyRecord)
    (comps : List PropertyRecord) :
    -0.10 ≤ (_calculate_feature_adjustments s comps).total
    ∧ (_calculate_feature_adjustments s comps).total ≤ 0.10 := by
  simp only [_calculate_feature_adjustments, FeatureAdjustments.total]
  set x := (listMean (comps.map (fun c => 2025 - c.year_built.getD 2000))
      - (2025 - s.year_built.getD 2000)) / 10 * 0.01 with hx
  have ha1 : -0.05 ≤ min 0.05 (max (-0.05) x) :=
    le_min (by norm_num) (le_max_left _ _)
  have ha2 : min 0.05 (max (-0.05) x) ≤ 0.05 := min_le_left _ _
  split_ifs <;>
    constructor <;>
    simp only [Option.getD_some, Option.getD_none] <;>
    linarith

theorem base_price_nonneg (s : PropertyRecord) (comps : List PropertyRecord)
    (hs : 0 ≤ s.sqft.getD (s.square_footage.getD 1))
    (h : ∀ c ∈ comps, 0 ≤ compPrice c ∧ 0 ≤ compSqft c ∧ 0 ≤ compKnnDistance c) :
    0 ≤ _calculate_base_price s comps := by
  have hsub : 0 ≤ subjectSqftEff s := by
    rw [subjectSqftEff]
    split_ifs with h0
    · norm_num
    · exact hs
  by_cases hc : comps = []
  · simp [_calculate_base_price, hc]
  · simp only [_calculate_base_price, if_neg hc]
    by_cases hu : usableComps comps = []
    · rw [if_pos hu]
      split_ifs with hf
      · norm_num
      · rw [listMean]
        apply div_nonneg
        · apply List.sum_nonneg
          intro x hx
          obtain ⟨c, hc', rfl⟩ := List.mem_map.mp hx
          exact (h c (List.mem_of_mem_filter hc')).1
        · positivity
    · rw [if_neg hu]
      have hpr : ∀ x ∈ (usableComps comps).map
          (fun c => compPrice c / compSqft c * subjectSqftEff s), 0 ≤ x := by
        intro x hx
        obtain ⟨c, hc', rfl⟩ := List.mem_map.mp hx
        have hcm := h c (List.mem_of_mem_filter hc')
        exact mul_nonneg (div_nonneg hcm.1 hcm.2.1) hsub
      have hw : ∀ x ∈ (usableComps comps).map
          (fun c => 1 / (1 + compKnnDistance c)), 0 ≤ x := by
        intro x hx
        obtain ⟨c, hc', rfl⟩ := List.mem_map.mp hx
        have hd := (h c (List.mem_of_mem_filter hc')).2.2
        positivity
      split_ifs with ht
      · rw [listMean]
        exact div_nonneg (List.sum_nonneg hpr) (by positivity)
      · apply div_nonneg
        · rw [List.zip_map', List.map_map]
          apply List.sum_nonneg
          intro x hx
          obtain ⟨c, hc', rfl⟩ := List.mem_map.mp hx
          have hcm := h c (List.mem_of_mem_filter hc')
          have hd := hcm.2.2
          have h1 : (0:ℝ) ≤ compPrice c / compSqft c * subjectSqftEff s :=
            mul_nonneg (div_nonneg hcm.1 hcm.2.1) hsub
          have h2 : (0:ℝ) ≤ 1 / (1 + compKnnDistance c) := by positivity
          exact mul_nonneg h1 h2
        · exact List.sum_nonneg hw

/-- C10 (amended): with a condition score in [0, 100] the total adjustment of
`estimate_price` lies in [−0.27, 0.21], hence `1 + total` is strictly
positive; and the recommended price is nonnegative provided additionally the
subject's square footage and every comparable's sale price, square footage
and KNN distance are nonnegative (a negative subject footage — or a negative
distance — can make it negative, see the counterexample). -/
theorem C10_total_adjustment_bounds (subject_home : PropertyRecord)
    (comparables : List PropertyRecord) (condition_summary : ConditionSummary)
    (hne : comparables ≠ [])
    (hs0 : 0 ≤ condition_summary.condition_score.getD 70)
    (hs100 : condition_summary.condition_score.getD 70 ≤ 100) :
    (-0.27 ≤ _calculate_condition_adjustment condition_summary
        + (_calculate_feature_adjustments subject_home comparables).total
    ∧ _calculate_condition_adjustment condition_summary
        + (_calculate_feature_adjustments subject_home comparables).total ≤ 0.21
    ∧ 0 < 1 + (_calculate_condition_adjustment condition_summary
        + (_calculate_feature_adjustments subject_home comparables).total))
    ∧ ((0 ≤ subject_home.sqft.getD (subject_home.square_footage.getD 1)
        ∧ ∀ c ∈ comparables,
            0 ≤ compPrice c ∧ 0 ≤ compSqft c ∧ 0 ≤ compKnnDistance c) →
       ∀ r, estimate_price subject_home comparables condition_summary = Except.ok r →
         0 ≤ r.recommended_price) := by
  obtain ⟨hc1, hc2⟩ := condition_adjustment_bounds condition_summary hs0 hs100
  obtain ⟨hf1, hf2⟩ := feature_adjustments_bounds subject_home comparables
  refine ⟨⟨by linarith, by linarith, by linarith⟩, ?_⟩
  rintro ⟨hsub, hcomp⟩ r hr
  obtain ⟨-, hrec, -⟩ := estimate_price_ok_elim hr
  rw [hrec]
  have hbase := base_price_nonneg subject_home comparables hsub hcomp
  have hx : (0:ℝ) ≤ _calculate_base_price subject_home comparables *
      (1 + (_calculate_condition_adjustment condition_summary
        + (_calculate_feature_adjustments subject_home comparables).total)) :=
    mul_nonneg hbase (by linarith)
  rw [truncInt, if_pos hx]
  exact Int.floor_nonneg.mpr hx

/-- Witness for C10 (amended) on a well-formed subject and comparable. -/
theorem C10_total_adjustment_bounds_witness :
    (([comp600k] : List PropertyRecord) ≠ []
      ∧ 0 ≤ (({} : ConditionSummary)).condition_score.getD 70
      ∧ (({} : ConditionSummary)).condition_score.getD 70 ≤ 100)
    ∧ ((-0.27 ≤ _calculate_condition_adjustment {}
          + (_calculate_feature_adjustments subj2400 [comp600k]).total
      ∧ _calculate_condition_adjustment {}
          + (_calculate_feature_adjustments subj2400 [comp600k]).total ≤ 0.21
      ∧ 0 < 1 + (_calculate_condition_adjustment {}
          + (_calculate_feature_adjustments subj2400 [comp600k]).total))
      ∧ ((0 ≤ subj2400.sqft.getD (subj2400.square_footage.getD 1)
          ∧ ∀ c ∈ ([comp600k] : List PropertyRecord),
              0 ≤ compPrice c ∧ 0 ≤ compSqft c ∧ 0 ≤ compKnnDistance c) →
         ∀ r, estimate_price subj2400 [comp600k] {} = Except.ok r →
           0 ≤ r.recommended_price)) :=
  ⟨⟨by simp, by norm_num, by norm_num⟩,
    C10_total_adjustment_bounds subj2400 [comp600k] {} (by simp)
      (by norm_num) (by norm_num)⟩

/-- C10 counterexample: a successful call whose condition score sits at the
baseline 70 and whose single comparable has nonnegative sale price and square
footage, yet the recommended price is −500, because the subject's square
footage is negative. -/
theorem C10_counterexample :
    (0 ≤ (({} : ConditionSummary)).condition_score.getD 70
      ∧ (({} : ConditionSummary)).condition_score.getD 70 ≤ 100)
    ∧ (∀ c ∈ ([bigComp] : List PropertyRecord), 0 ≤ compPrice c ∧ 0 ≤ compSqft c)
    ∧ ∃ r, estimate_price negSubj [bigComp] {} = Except.ok r
        ∧ r.recommended_price < 0 := by
  refine ⟨⟨by norm_num, by norm_num⟩, ?_, ?_⟩
  · intro c hc
    rcases List.mem_singleton.mp hc with rfl
    constructor <;> norm_num [compPrice, compSqft, bigComp]
  · obtain ⟨r, hr⟩ := negSubj_ok
    obtain ⟨hrec, -⟩ := negSubj_recommended hr
    exact ⟨r, hr, by rw [hrec]; decide⟩

end PriceEstimator

end HomePricing

end
